import Mathlib

/-!
Verification of the expense-statistics aggregation and record deletion of
the Expense_tracker repository (src/app.py), against its specification.

The embedding models the SQLAlchemy (default) storage path of `app.py`,
which is the branch the specification describes: the `get_stats` view
(src/app.py:436-670) and the `delete_expense` view (src/app.py:409-434).

Modelling choices:
- Calendar dates are day numbers (days since 0000-03-01, proleptic
  Gregorian), with conversions `daysFromCivil` / `civilFromDays`; Python
  `date` comparison is day-number comparison, `timedelta(days=k)`
  subtraction is numeric subtraction, `replace(day=1)` and `strftime`
  are computed through the civil conversion.
- Monetary amounts (Python floats holding currency values) are modelled
  as exact integers `ℤ`; every claim here concerns which records are
  aggregated into which sums, not rounding of the numeric type.
- Python dicts are association lists `List (String × ℤ)` in insertion
  order; `d[k] = v` updates in place or appends (`dset`), `d.get(k, 0) + a`
  accumulation is `dincr`, `d[k] += a` on an existing key is `dadjust`,
  `sorted(d.items())` is `sortByKey` (keys are pairwise distinct in every
  dict built here, so sorting pairs by key equals Python's tuple sort).
-/

namespace ExpTrack

/-! ## Calendar arithmetic (Python `datetime.date`) -/

/-- Day number (days since 0000-03-01, proleptic Gregorian) of a civil date. -/
def daysFromCivil (y m d : Nat) : Nat :=
  let y' := if m ≤ 2 then y - 1 else y
  let m' := if m ≤ 2 then m + 9 else m - 3
  365 * y' + y' / 4 - y' / 100 + y' / 400 + (153 * m' + 2) / 5 + (d - 1)

/-- Civil date (year, month, day) of a day number. -/
def civilFromDays (n : Nat) : Nat × Nat × Nat :=
  let era := n / 146097
  let doe := n % 146097
  let yoe := (doe - doe / 1460 + doe / 36524 - doe / 146096) / 365
  let y' := yoe + era * 400
  let doy := doe - (365 * yoe + yoe / 4 - yoe / 100)
  let mp := (5 * doy + 2) / 153
  let d := doy - (153 * mp + 2) / 5 + 1
  let m := if mp < 10 then mp + 3 else mp - 9
  if m ≤ 2 then (y' + 1, m, d) else (y', m, d)

/-- Python `some_date.replace(day=1)`: first calendar day of the date's month. -/
def replaceDay1 (n : Nat) : Nat :=
  let c := civilFromDays n
  daysFromCivil c.1 c.2.1 1

/-- Three-letter day names as produced by `strftime('%a')`, Monday first. -/
def dayNames : List String := ["Mon", "Tue", "Wed", "Thu", "Fri", "Sat", "Sun"]

/-- Python `some_date.strftime('%a')`. Day number 0 (0000-03-01) is a Wednesday. -/
def dayAbbrev (n : Nat) : String := dayNames.getD ((n + 2) % 7) ""

/-- Three-letter month names as produced by `strftime('%b')`. -/
def monthNames : List String :=
  ["Jan", "Feb", "Mar", "Apr", "May", "Jun", "Jul", "Aug", "Sep", "Oct", "Nov", "Dec"]

/-- Python `some_date.strftime('%b %Y')`. -/
def monthYearKey (n : Nat) : String :=
  let c := civilFromDays n
  monthNames.getD (c.2.1 - 1) "" ++ " " ++ toString c.1

/-- Python `f"{i:02d}"` for hours. -/
def pad2 (i : Nat) : String := if i < 10 then "0" ++ toString i else toString i

/-! ## String order (Python string comparison, code-point lexicographic) -/

/-- Lexicographic comparison of character lists by code point. -/
def charListLt : List Char → List Char → Bool
  | [], [] => false
  | [], _ :: _ => true
  | _ :: _, [] => false
  | a :: as, b :: bs =>
    if a.toNat < b.toNat then true
    else if b.toNat < a.toNat then false
    else charListLt as bs

/-- Python `<` on strings. -/
def strLt (a b : String) : Bool := charListLt a.data b.data

/-! ## Python dict as an insertion-ordered association list -/

/-- Dict lookup: value stored under `k`, if any. -/
def dlookup : List (String × ℤ) → String → Option ℤ
  | [], _ => none
  | (k', v) :: rest, k => if k' == k then some v else dlookup rest k

/-- Python `d.get(k, dflt)`. -/
def dgetD (d : List (String × ℤ)) (k : String) (dflt : ℤ) : ℤ :=
  (dlookup d k).getD dflt

/-- Python `d[k] = v`: replace in place if the key exists, else append. -/
def dset : List (String × ℤ) → String → ℤ → List (String × ℤ)
  | [], k, v => [(k, v)]
  | (k', v') :: rest, k, v =>
    if k' == k then (k', v) :: rest else (k', v') :: dset rest k v

/-- Python `d[k] = d.get(k, 0) + a`. -/
def dincr (d : List (String × ℤ)) (k : String) (a : ℤ) : List (String × ℤ) :=
  dset d k (dgetD d k 0 + a)

/-- Python `d[k] += a` (key present; no-op on a missing key, which never occurs here). -/
def dadjust : List (String × ℤ) → String → ℤ → List (String × ℤ)
  | [], _, _ => []
  | (k', v') :: rest, k, a =>
    if k' == k then (k', v' + a) :: rest else (k', v') :: dadjust rest k a

/-- Keys of the dict, in insertion order. -/
def dkeys (d : List (String × ℤ)) : List String := d.map Prod.fst

/-- Sum of all values of the dict. -/
def dvalsum (d : List (String × ℤ)) : ℤ := (d.map Prod.snd).sum

/-- Sort order used by Python `sorted(d.items())`: ascending by key. -/
def keyLe (a b : String × ℤ) : Prop := strLt b.1 a.1 = false

instance : DecidableRel keyLe := fun a b => by unfold keyLe; infer_instance

/-- Python `dict(sorted(d.items()))` (keys of `d` are pairwise distinct here). -/
def sortByKey (d : List (String × ℤ)) : List (String × ℤ) := d.insertionSort keyLe

/-! ## Data model (src/app.py:181-199, class Expense) -/

/-- Expense record: one row of the `Expense` table.  `date` is a day number;
`time` is the raw "HH:MM" string, with `""` standing for a missing time
(the code treats `None` and `''` identically, both are falsy). -/
structure Exp where
  id : Nat
  userId : Nat
  description : String
  amount : ℤ
  category : String
  date : Nat
  time : String
deriving Repr, DecidableEq

/-- Result of the `/api/stats` computation (src/app.py:663-670). -/
structure StatsResult where
  total_spent : ℤ
  weekly_spent : ℤ
  monthly_spent : ℤ
  category_stats : List (String × ℤ)
  breakdown : List (String × ℤ)
  period : String
deriving Repr, DecidableEq

/-! ## The stats computation (src/app.py:436-670, SQLAlchemy path) -/

/-- Hour-bucket key of a record's time (src/app.py:623-624):
`hour = exp.time.split(':')[0] if exp.time else '00'; key = f"{hour}:00"`.
The text before the first `':'` of `t` is `(t.data.takeWhile (· ≠ ':'))`,
which equals Python `t.split(':')[0]`. -/
def hourKey (t : String) : String :=
  (if t == "" then "00" else String.mk (t.data.takeWhile (fun c => !(c == ':')))) ++ ":00"

/-- Category totals (src/app.py:530-535): `GROUP BY category, SUM(amount)`,
as a dict from category to summed amount over the windowed records. -/
def groupSum (rs : List Exp) : List (String × ℤ) :=
  rs.foldl (fun d r => dincr d r.category r.amount) []

/-- Hourly breakdown for period `daily` (src/app.py:619-631): accumulate each
windowed record into its hour bucket, fill the 24 hours `"00:00"`..`"23:00"`
with zeros where missing, then sort by key. -/
def dailyBreakdown (rs : List Exp) : List (String × ℤ) :=
  sortByKey ((List.range 24).foldl
    (fun d i => if (dlookup d (pad2 i ++ ":00")).isSome then d else dset d (pad2 i ++ ":00") 0)
    (rs.foldl (fun d r => dincr d (hourKey r.time) r.amount) []))

/-- Day-of-week breakdown for period `weekly` (src/app.py:632-642): initialize
the weekday names of the 7 days `today-6` .. `today` to zero in order, then
add each windowed record's amount to its weekday's bucket. -/
def weeklyBreakdown (today : Nat) (rs : List Exp) : List (String × ℤ) :=
  rs.foldl (fun d r => dadjust d (dayAbbrev r.date) r.amount)
    ((List.range 7).foldl (fun d i => dset d (dayAbbrev (today - (6 - i))) 0) [])

/-- Lower boundary of bucket `i` of the approximate-month breakdown
(src/app.py:649): `month_start = (today - timedelta(days=30*i)).replace(day=1)`. -/
def monthStart (today i : Nat) : Nat := replaceDay1 (today - 30 * i)

/-- Upper boundary of bucket `i` of the approximate-month breakdown
(src/app.py:650-654): `today` for the most recent bucket, otherwise the day
before the first day of the month of `today - timedelta(days=30*(i-1))`. -/
def monthEnd (today i : Nat) : Nat :=
  if 0 < i then replaceDay1 (today - 30 * (i - 1)) - 1 else today

/-- Amount of bucket `i` of the approximate-month breakdown
(src/app.py:656-659).  The source queries `Expense.query` here, NOT
`base_query`: the sum ranges over the records of every account, not only
the current user's (and over the full record set, not the period window). -/
def monthBucketAmt (db : List Exp) (today i : Nat) : ℤ :=
  ((db.filter (fun r =>
    decide (monthStart today i ≤ r.date) && decide (r.date ≤ monthEnd today i))).map
      (·.amount)).sum

/-- Approximate-month breakdown for periods `monthly` / `all`
(src/app.py:643-661).  For `i` in 0..5 the anchor is `today - 30*i`, keyed by
its `'%b %Y'` name (a later duplicate key overwrites an earlier bucket). -/
def monthlyBreakdown (db : List Exp) (today : Nat) : List (String × ℤ) :=
  (List.range 6).foldl
    (fun d i => dset d (monthYearKey (today - 30 * i)) (monthBucketAmt db today i)) []

/-- The `/api/stats` computation (src/app.py:436-670, SQLAlchemy path).
`db` is the whole expense table, `uid` the authenticated user's id,
`today` the current date, `period` the `period` query parameter. -/
def getStats (db : List Exp) (uid : Nat) (today : Nat) (period : String) : StatsResult :=
  -- src/app.py:442-453: the period window
  let startEnd : Option (Nat × Nat) :=
    if period == "daily" then some (today, today)
    else if period == "weekly" then some (today - 7, today)
    else if period == "monthly" then some (today - 30, today)
    else none
  -- src/app.py:504: base_query = Expense.query.filter_by(user_id=current_user.id)
  let baseQuery := db.filter (fun r => r.userId == uid)
  -- src/app.py:506-512: expenses_query = base_query restricted to the window
  let expensesQuery := match startEnd with
    | some se => baseQuery.filter (fun r => decide (se.1 ≤ r.date) && decide (r.date ≤ se.2))
    | none => baseQuery
  -- src/app.py:515: total over the windowed records (`or 0` is the empty sum)
  let total_spent := (expensesQuery.map (·.amount)).sum
  -- src/app.py:518-521: last 7 days, user-filtered, no upper bound on the date
  let weekAgo := today - 7
  let weekly_spent := ((baseQuery.filter (fun r => decide (weekAgo ≤ r.date))).map (·.amount)).sum
  -- src/app.py:524-527: last 30 days, user-filtered, no upper bound on the date
  let monthAgo := today - 30
  let monthly_spent := ((baseQuery.filter (fun r => decide (monthAgo ≤ r.date))).map (·.amount)).sum
  -- src/app.py:530-535: category totals over the windowed records
  let category_data := groupSum expensesQuery
  -- src/app.py:619-661: period-shaped breakdown
  let breakdown :=
    if period == "daily" then dailyBreakdown expensesQuery
    else if period == "weekly" then weeklyBreakdown today expensesQuery
    else monthlyBreakdown db today
  -- src/app.py:663-670: the JSON payload
  { total_spent := total_spent
    weekly_spent := weekly_spent
    monthly_spent := monthly_spent
    category_stats := category_data
    breakdown := breakdown
    period := period }

/-! ## Record deletion (src/app.py:409-434, SQLAlchemy path) -/

/-- The `DELETE /api/expenses/<id>` handler, SQLAlchemy path
(src/app.py:430-434): look the record up by primary key; delete it only when
it exists and belongs to the caller; answer `{"success": true}`, 200 in every
case.  Returns the new table and the response (success flag, HTTP status). -/
def deleteExpense (db : List Exp) (uid : Nat) (eid : Nat) : List Exp × Bool × Nat :=
  match db.find? (fun r => r.id == eid) with
  | some r =>
    if r.userId == uid then (db.eraseP (fun x => x.id == eid), true, 200)
    else (db, true, 200)
  | none => (db, true, 200)

/-! ## Association-list (dict) lemmas -/

theorem dlookup_dset (d : List (String × ℤ)) (k k' : String) (v : ℤ) :
    dlookup (dset d k v) k' = if k = k' then some v else dlookup d k' := by
  induction d with
  | nil => by_cases h : k = k' <;> simp [dset, dlookup, h]
  | cons p rest ih =>
    obtain ⟨pk, pv⟩ := p
    by_cases h1 : pk = k <;> by_cases h2 : pk = k' <;> by_cases h3 : k = k' <;>
      simp_all [dset, dlookup]

theorem dgetD_of_dlookup_none {d : List (String × ℤ)} {k : String}
    (h : dlookup d k = none) (dflt : ℤ) : dgetD d k dflt = dflt := by
  simp [dgetD, h]

theorem dvalsum_dset (d : List (String × ℤ)) (k : String) (v : ℤ) :
    dvalsum (dset d k v) = dvalsum d + v - dgetD d k 0 := by
  induction d with
  | nil => simp [dset, dvalsum, dgetD, dlookup]
  | cons p rest ih =>
    obtain ⟨pk, pv⟩ := p
    by_cases h1 : pk = k <;> simp_all [dset, dvalsum, dgetD, dlookup] <;> ring

theorem dvalsum_dincr (d : List (String × ℤ)) (k : String) (a : ℤ) :
    dvalsum (dincr d k a) = dvalsum d + a := by
  simp [dincr, dvalsum_dset]; ring

theorem dkeys_dadjust (d : List (String × ℤ)) (k : String) (a : ℤ) :
    dkeys (dadjust d k a) = dkeys d := by
  induction d with
  | nil => rfl
  | cons p rest ih =>
    obtain ⟨pk, pv⟩ := p
    by_cases h1 : pk = k <;> simp_all [dadjust, dkeys]

theorem dvalsum_dadjust {d : List (String × ℤ)} {k : String} (a : ℤ)
    (h : k ∈ dkeys d) : dvalsum (dadjust d k a) = dvalsum d + a := by
  induction d with
  | nil => simp [dkeys] at h
  | cons p rest ih =>
    obtain ⟨pk, pv⟩ := p
    by_cases h1 : pk = k
    · simp_all [dadjust, dvalsum]; ring
    · have hk : k ∈ dkeys rest := by
        simp [dkeys] at h ⊢
        rcases h with h | h
        · exact absurd h.symm h1
        · exact h
      simp_all [dadjust, dvalsum]; ring

theorem mem_dkeys_dset (d : List (String × ℤ)) (k a : String) (v : ℤ) :
    a ∈ dkeys (dset d k v) ↔ a ∈ dkeys d ∨ a = k := by
  induction d with
  | nil => simp [dset, dkeys]
  | cons p rest ih =>
    obtain ⟨pk, pv⟩ := p
    by_cases h1 : pk = k <;> simp_all [dset, dkeys] <;> tauto

theorem nodup_dkeys_dset {d : List (String × ℤ)} (k : String) (v : ℤ)
    (h : (dkeys d).Nodup) : (dkeys (dset d k v)).Nodup := by
  induction d with
  | nil => simp [dset, dkeys]
  | cons p rest ih =>
    obtain ⟨pk, pv⟩ := p
    by_cases h1 : pk = k
    · have : dset ((pk, pv) :: rest) k v = (pk, v) :: rest := by
        simp [dset, h1]
      rw [this]
      simpa [dkeys] using h
    · simp only [dkeys, List.map_cons, List.nodup_cons] at h
      have hstep : dset ((pk, pv) :: rest) k v = (pk, pv) :: dset rest k v := by
        simp [dset, beq_eq_false_iff_ne.mpr h1]
      rw [hstep]
      simp only [dkeys, List.map_cons, List.nodup_cons]
      constructor
      · intro hx
        rcases (mem_dkeys_dset rest k pk v).mp (by simpa [dkeys] using hx) with hx' | hx'
        · exact h.1 (by simpa [dkeys] using hx')
        · exact h1 hx'
      · exact ih h.2

theorem dlookup_isSome_iff (d : List (String × ℤ)) (k : String) :
    (dlookup d k).isSome = true ↔ k ∈ dkeys d := by
  induction d with
  | nil => simp [dlookup, dkeys]
  | cons p rest ih =>
    obtain ⟨pk, pv⟩ := p
    by_cases h1 : pk = k <;> simp_all [dlookup, dkeys]
    tauto

theorem dlookup_eq_none_iff (d : List (String × ℤ)) (k : String) :
    dlookup d k = none ↔ k ∉ dkeys d := by
  rw [← dlookup_isSome_iff]
  cases dlookup d k <;> simp

theorem dlookup_eq_some_dgetD {d : List (String × ℤ)} {k : String}
    (h : k ∈ dkeys d) : dlookup d k = some (dgetD d k 0) := by
  rw [← dlookup_isSome_iff] at h
  cases hx : dlookup d k with
  | none => rw [hx] at h; simp at h
  | some v => simp [dgetD, hx]

theorem mem_of_dlookup_eq_some {d : List (String × ℤ)} {k : String} {v : ℤ}
    (h : dlookup d k = some v) : (k, v) ∈ d := by
  induction d with
  | nil => simp [dlookup] at h
  | cons p rest ih =>
    obtain ⟨pk, pv⟩ := p
    by_cases h1 : pk = k
    · subst h1
      simp [dlookup] at h
      simp [h]
    · simp [dlookup, h1, beq_eq_false_iff_ne.mpr h1] at h
      exact List.mem_cons_of_mem _ (ih h)

theorem dlookup_eq_some_of_mem {d : List (String × ℤ)} {k : String} {v : ℤ}
    (hn : (dkeys d).Nodup) (hm : (k, v) ∈ d) : dlookup d k = some v := by
  induction d with
  | nil => simp at hm
  | cons p rest ih =>
    obtain ⟨pk, pv⟩ := p
    simp only [dkeys, List.map_cons, List.nodup_cons] at hn
    rcases List.mem_cons.mp hm with hm | hm
    · rw [show pk = k from (congrArg Prod.fst hm.symm),
        show pv = v from (congrArg Prod.snd hm.symm)]
      simp [dlookup]
    · have hkr : k ∈ dkeys rest := by
        simpa [dkeys] using List.mem_map_of_mem Prod.fst hm
      have hne : pk ≠ k := fun he => hn.1 (he ▸ hkr)
      simp [dlookup, beq_eq_false_iff_ne.mpr hne]
      exact ih hn.2 hm

theorem dlookup_perm {d d' : List (String × ℤ)} (hp : d.Perm d')
    (hn : (dkeys d).Nodup) (k : String) : dlookup d k = dlookup d' k := by
  have hn' : (dkeys d').Nodup := ((hp.map Prod.fst).nodup_iff).mp hn
  cases hx : dlookup d k with
  | some v =>
    exact (dlookup_eq_some_of_mem hn' (hp.mem_iff.mp (mem_of_dlookup_eq_some hx))).symm
  | none =>
    have : k ∉ dkeys d' := by
      intro hmem
      exact ((dlookup_eq_none_iff d k).mp hx)
        (by simpa [dkeys] using (hp.map Prod.fst).mem_iff.mpr (by simpa [dkeys] using hmem))
    exact ((dlookup_eq_none_iff d' k).mpr this).symm

theorem dvalsum_perm {d d' : List (String × ℤ)} (hp : d.Perm d') :
    dvalsum d = dvalsum d' := (hp.map Prod.snd).sum_eq

theorem dset_of_not_mem {d : List (String × ℤ)} {k : String} (v : ℤ)
    (h : k ∉ dkeys d) : dset d k v = d ++ [(k, v)] := by
  induction d with
  | nil => rfl
  | cons p rest ih =>
    obtain ⟨pk, pv⟩ := p
    simp only [dkeys, List.map_cons, List.mem_cons, not_or] at h
    simp [dset, beq_eq_false_iff_ne.mpr (fun he => h.1 he.symm),
      ih (by simpa [dkeys] using h.2)]

theorem mem_dset_cases {d : List (String × ℤ)} {k : String} {v : ℤ} {p : String × ℤ}
    (h : p ∈ dset d k v) : p ∈ d ∨ p.2 = v := by
  induction d with
  | nil => simp [dset] at h; simp [h]
  | cons q rest ih =>
    obtain ⟨qk, qv⟩ := q
    by_cases h1 : qk = k
    · rw [show dset ((qk, qv) :: rest) k v = (qk, v) :: rest by simp [dset, h1]] at h
      rcases List.mem_cons.mp h with h | h
      · right; simp [h]
      · left; exact List.mem_cons_of_mem _ h
    · rw [show dset ((qk, qv) :: rest) k v = (qk, qv) :: dset rest k v by
        simp [dset, beq_eq_false_iff_ne.mpr h1]] at h
      rcases List.mem_cons.mp h with h | h
      · left; exact List.mem_cons.mpr (Or.inl h)
      · rcases ih h with h' | h'
        · left; exact List.mem_cons_of_mem _ h'
        · right; exact h'

/-! ## Lemmas about the accumulation folds -/

theorem dgetD_dincr (d : List (String × ℤ)) (k k' : String) (a : ℤ) :
    dgetD (dincr d k a) k' 0 = dgetD d k' 0 + if k = k' then a else 0 := by
  by_cases h : k = k' <;>
    simp [dincr, dgetD, dlookup_dset, h]

theorem foldl_dincr_dgetD {α : Type} (g : α → String) (f : α → ℤ) (l : List α)
    (k : String) : ∀ d, dgetD (l.foldl (fun d r => dincr d (g r) (f r)) d) k 0
      = dgetD d k 0 + ((l.filter (fun r => g r == k)).map f).sum := by
  induction l with
  | nil => simp
  | cons r rest ih =>
    intro d
    simp only [List.foldl_cons]
    rw [ih, dgetD_dincr]
    by_cases h : g r = k <;> simp [List.filter_cons, h] <;> ring

theorem foldl_dincr_mem_dkeys {α : Type} (g : α → String) (f : α → ℤ) (l : List α)
    (k : String) : ∀ d, k ∈ dkeys (l.foldl (fun d r => dincr d (g r) (f r)) d)
      ↔ k ∈ dkeys d ∨ ∃ r ∈ l, g r = k := by
  induction l with
  | nil => simp
  | cons r rest ih =>
    intro d
    simp only [List.foldl_cons]
    rw [ih]
    rw [show dincr d (g r) (f r) = dset d (g r) _ from rfl, mem_dkeys_dset]
    constructor
    · rintro ((h | h) | h)
      · exact Or.inl h
      · exact Or.inr ⟨r, List.mem_cons_self .., h.symm⟩
      · obtain ⟨x, hx, hgx⟩ := h
        exact Or.inr ⟨x, List.mem_cons_of_mem _ hx, hgx⟩
    · rintro (h | ⟨x, hx, hgx⟩)
      · exact Or.inl (Or.inl h)
      · rcases List.mem_cons.mp hx with hx | hx
        · exact Or.inl (Or.inr (hx ▸ hgx).symm)
        · exact Or.inr ⟨x, hx, hgx⟩

theorem foldl_dincr_nodup {α : Type} (g : α → String) (f : α → ℤ) (l : List α) :
    ∀ d, (dkeys d).Nodup →
      (dkeys (l.foldl (fun d r => dincr d (g r) (f r)) d)).Nodup := by
  induction l with
  | nil => simpa
  | cons r rest ih =>
    intro d hd
    exact ih _ (nodup_dkeys_dset _ _ hd)

theorem foldl_dincr_dvalsum {α : Type} (g : α → String) (f : α → ℤ) (l : List α) :
    ∀ d, dvalsum (l.foldl (fun d r => dincr d (g r) (f r)) d)
      = dvalsum d + (l.map f).sum := by
  induction l with
  | nil => simp
  | cons r rest ih =>
    intro d
    simp only [List.foldl_cons, List.map_cons, List.sum_cons]
    rw [ih, dvalsum_dincr]
    ring

theorem foldl_fill_some {α : Type} (g : α → String) (l : List α) {k : String} {v : ℤ} :
    ∀ d, dlookup d k = some v →
      dlookup (l.foldl
        (fun d i => if (dlookup d (g i)).isSome then d else dset d (g i) 0) d) k
      = some v := by
  induction l with
  | nil => intro d h; simpa
  | cons i rest ih =>
    intro d h
    simp only [List.foldl_cons]
    by_cases hs : (dlookup d (g i)).isSome
    · rw [if_pos hs]; exact ih d h
    · rw [if_neg hs]
      refine ih _ ?_
      rw [dlookup_dset]
      have : g i ≠ k := fun he => hs (by rw [he, h]; rfl)
      rw [if_neg this]
      exact h

theorem foldl_fill_mem {α : Type} (g : α → String) (l : List α) {k : String} :
    k ∈ l.map g → ∀ d,
      dlookup (l.foldl
        (fun d i => if (dlookup d (g i)).isSome then d else dset d (g i) 0) d) k
      = some (dgetD d k 0) := by
  induction l with
  | nil => intro h; simp at h
  | cons i rest ih =>
    intro hmem d
    simp only [List.foldl_cons]
    by_cases hik : g i = k
    · by_cases hs : (dlookup d (g i)).isSome
      · rw [if_pos hs]
        rcases Option.isSome_iff_exists.mp hs with ⟨v, hv⟩
        rw [hik] at hv
        rw [show dgetD d k 0 = v by simp [dgetD, hv]]
        by_cases hr : k ∈ rest.map g
        · rw [ih hr d, show dgetD d k 0 = v by simp [dgetD, hv]]
        · exact foldl_fill_some g rest d hv
      · rw [if_neg hs]
        have hnone : dlookup d k = none := by
          rw [← hik]; cases hx : dlookup d (g i) with
          | none => rfl
          | some v => rw [hx] at hs; simp at hs
        have h0 : dlookup (dset d (g i) 0) k = some 0 := by
          rw [dlookup_dset, if_pos hik]
        rw [dgetD_of_dlookup_none hnone]
        by_cases hr : k ∈ rest.map g
        · rw [ih hr _, show dgetD (dset d (g i) 0) k 0 = 0 by simp [dgetD, h0]]
        · exact foldl_fill_some g rest _ h0
    · have hr : k ∈ rest.map g := by
        rcases List.mem_map.mp hmem with ⟨x, hx, hgx⟩
        rcases List.mem_cons.mp hx with hx | hx
        · exact absurd (hx ▸ hgx) hik
        · exact List.mem_map.mpr ⟨x, hx, hgx⟩
      by_cases hs : (dlookup d (g i)).isSome
      · rw [if_pos hs]; exact ih hr d
      · rw [if_neg hs]
        rw [ih hr _]
        have : dlookup (dset d (g i) 0) k = dlookup d k := by
          rw [dlookup_dset, if_neg hik]
        simp [dgetD, this]

theorem foldl_fill_mem_dkeys {α : Type} (g : α → String) (l : List α) (a : String) :
    ∀ d, a ∈ dkeys (l.foldl
        (fun d i => if (dlookup d (g i)).isSome then d else dset d (g i) 0) d)
      ↔ a ∈ dkeys d ∨ a ∈ l.map g := by
  induction l with
  | nil => simp
  | cons i rest ih =>
    intro d
    simp only [List.foldl_cons, List.map_cons, List.mem_cons]
    by_cases hs : (dlookup d (g i)).isSome
    · rw [if_pos hs, ih]
      have hgi : g i ∈ dkeys d := (dlookup_isSome_iff d (g i)).mp hs
      constructor
      · rintro (h | h)
        · exact Or.inl h
        · exact Or.inr (Or.inr h)
      · rintro (h | h | h)
        · exact Or.inl h
        · exact Or.inl (h ▸ hgi)
        · exact Or.inr h
    · rw [if_neg hs, ih]
      rw [mem_dkeys_dset]
      tauto

theorem foldl_fill_nodup {α : Type} (g : α → String) (l : List α) :
    ∀ d, (dkeys d).Nodup →
      (dkeys (l.foldl
        (fun d i => if (dlookup d (g i)).isSome then d else dset d (g i) 0) d)).Nodup := by
  induction l with
  | nil => simpa
  | cons i rest ih =>
    intro d hd
    simp only [List.foldl_cons]
    by_cases hs : (dlookup d (g i)).isSome
    · rw [if_pos hs]; exact ih d hd
    · rw [if_neg hs]; exact ih _ (nodup_dkeys_dset _ _ hd)

theorem foldl_fill_dvalsum {α : Type} (g : α → String) (l : List α) :
    ∀ d, dvalsum (l.foldl
        (fun d i => if (dlookup d (g i)).isSome then d else dset d (g i) 0) d)
      = dvalsum d := by
  induction l with
  | nil => simp
  | cons i rest ih =>
    intro d
    simp only [List.foldl_cons]
    by_cases hs : (dlookup d (g i)).isSome
    · rw [if_pos hs]; exact ih d
    · rw [if_neg hs, ih, dvalsum_dset]
      have hnone : dlookup d (g i) = none := by
        cases hx : dlookup d (g i) with
        | none => rfl
        | some v => rw [hx] at hs; simp at hs
      rw [dgetD_of_dlookup_none hnone]
      ring

theorem foldl_dset_mem_dkeys {α : Type} (g : α → String) (h : α → ℤ) (l : List α)
    (a : String) : ∀ d, a ∈ dkeys (l.foldl (fun d i => dset d (g i) (h i)) d)
      ↔ a ∈ dkeys d ∨ ∃ i ∈ l, a = g i := by
  induction l with
  | nil => simp
  | cons i rest ih =>
    intro d
    simp only [List.foldl_cons]
    rw [ih, mem_dkeys_dset]
    constructor
    · rintro ((h' | h') | h')
      · exact Or.inl h'
      · exact Or.inr ⟨i, List.mem_cons_self .., h'⟩
      · obtain ⟨x, hx, hgx⟩ := h'
        exact Or.inr ⟨x, List.mem_cons_of_mem _ hx, hgx⟩
    · rintro (h' | ⟨x, hx, hgx⟩)
      · exact Or.inl (Or.inl h')
      · rcases List.mem_cons.mp hx with hx | hx
        · exact Or.inl (Or.inr (hx ▸ hgx))
        · exact Or.inr ⟨x, hx, hgx⟩

theorem foldl_dset_vals_zero {α : Type} (g : α → String) (l : List α) :
    ∀ d, (∀ p ∈ d, Prod.snd p = 0) →
      ∀ p ∈ (l.foldl (fun d i => dset d (g i) 0) d), Prod.snd p = 0 := by
  induction l with
  | nil => intro d hd; simpa using hd
  | cons i rest ih =>
    intro d hd
    refine ih _ ?_
    intro p hp
    rcases mem_dset_cases hp with h' | h'
    · exact hd p h'
    · exact h'

theorem foldl_dset_eq_append {α : Type} (g : α → String) (h : α → ℤ) (l : List α) :
    ∀ d, (∀ i ∈ l, g i ∉ dkeys d) → (l.map g).Nodup →
      l.foldl (fun d i => dset d (g i) (h i)) d = d ++ l.map (fun i => (g i, h i)) := by
  induction l with
  | nil => simp
  | cons i rest ih =>
    intro d hfresh hnd
    simp only [List.foldl_cons]
    rw [dset_of_not_mem _ (hfresh i (List.mem_cons_self ..))]
    simp only [List.map_cons, List.nodup_cons] at hnd
    rw [ih _ ?_ hnd.2]
    · simp
    · intro j hj
      have h1 : g j ∉ dkeys d := hfresh j (List.mem_cons_of_mem _ hj)
      have h2 : g j ≠ g i := fun he => hnd.1 (he ▸ List.mem_map_of_mem g hj)
      simp only [dkeys, List.map_append, List.mem_append, List.map_cons, List.map_nil,
        List.mem_singleton, not_or]
      exact ⟨by simpa [dkeys] using h1, h2⟩

theorem dlookup_map_pairs {α : Type} [DecidableEq α] (g : α → String) (h : α → ℤ)
    (l : List α) {i : α} (hnd : (l.map g).Nodup) (hi : i ∈ l) :
    dlookup (l.map (fun j => (g j, h j))) (g i) = some (h i) := by
  induction l with
  | nil => simp at hi
  | cons j rest ih =>
    simp only [List.map_cons, List.nodup_cons] at hnd
    rcases List.mem_cons.mp hi with hij | hij
    · subst hij
      simp [dlookup]
    · have hne : g j ≠ g i := fun he => hnd.1 (he ▸ List.mem_map_of_mem g hij)
      simp only [List.map_cons, dlookup, beq_eq_false_iff_ne.mpr hne,
        Bool.false_eq_true, if_false]
      exact ih hnd.2 hij

theorem dkeys_foldl_dadjust {α : Type} (κ : α → String) (f : α → ℤ) (l : List α) :
    ∀ d, dkeys (l.foldl (fun d r => dadjust d (κ r) (f r)) d) = dkeys d := by
  induction l with
  | nil => simp
  | cons r rest ih =>
    intro d
    simp only [List.foldl_cons]
    rw [ih, dkeys_dadjust]

theorem foldl_dadjust_dvalsum {α : Type} (κ : α → String) (f : α → ℤ) (l : List α) :
    ∀ d, (∀ r ∈ l, κ r ∈ dkeys d) →
      dvalsum (l.foldl (fun d r => dadjust d (κ r) (f r)) d)
        = dvalsum d + (l.map f).sum := by
  induction l with
  | nil => simp
  | cons r rest ih =>
    intro d hmem
    simp only [List.foldl_cons, List.map_cons, List.sum_cons]
    rw [ih _ ?_, dvalsum_dadjust _ (hmem r (List.mem_cons_self ..))]
    · ring
    · intro x hx
      rw [dkeys_dadjust]
      exact hmem x (List.mem_cons_of_mem _ hx)

/-! ## Lemmas about the string order and `sortByKey` -/

theorem charListLt_asymm : ∀ x y, charListLt x y = true → charListLt y x = false := by
  intro x
  induction x with
  | nil => intro y h; cases y <;> simp [charListLt] at h ⊢
  | cons a as ih =>
    intro y h
    cases y with
    | nil => simp [charListLt] at h
    | cons b bs =>
      simp only [charListLt] at h ⊢
      by_cases h1 : a.toNat < b.toNat
      · have hba : ¬ b.toNat < a.toNat := by omega
        simp [hba, h1]
      · by_cases h2 : b.toNat < a.toNat
        · simp [h1, h2] at h
        · simp only [h1, h2, if_false] at h
          simp only [h1, h2, if_false]
          exact ih bs h

theorem charListLt_conn : ∀ x y, charListLt x y = false → charListLt y x = false →
    x = y := by
  intro x
  induction x with
  | nil => intro y h1 h2; cases y <;> simp [charListLt] at h1 ⊢
  | cons a as ih =>
    intro y h1 h2
    cases y with
    | nil => simp [charListLt] at h2
    | cons b bs =>
      simp only [charListLt] at h1 h2
      by_cases ha : a.toNat < b.toNat
      · simp [ha] at h1
      · by_cases hb : b.toNat < a.toNat
        · simp [hb] at h2
        · simp only [ha, hb, if_false] at h1 h2
          have hab : a = b := by
            have hn : a.toNat = b.toNat := by omega
            unfold Char.toNat at hn
            exact Char.eq_of_val_eq (UInt32.toNat.inj hn)
          rw [hab, ih bs h1 h2]

theorem charListLt_le_trans : ∀ x y z, charListLt y x = false →
    charListLt z y = false → charListLt z x = false := by
  intro x
  induction x with
  | nil => intro y z _ _; cases z <;> simp [charListLt]
  | cons a as ih =>
    intro y z h1 h2
    cases y with
    | nil => simp [charListLt] at h1
    | cons b bs =>
      cases z with
      | nil => simp [charListLt] at h2
      | cons c cs =>
        simp only [charListLt] at h1 h2 ⊢
        by_cases hba : b.toNat < a.toNat
        · simp [hba] at h1
        · by_cases hcb : c.toNat < b.toNat
          · simp [hcb] at h2
          · have hca : ¬ c.toNat < a.toNat := by omega
            simp only [hba, hcb, if_false] at h1 h2
            simp only [hca, if_false]
            by_cases hac : a.toNat < c.toNat
            · simp [hac]
            · have hab : ¬ a.toNat < b.toNat := by omega
              have hbc : ¬ b.toNat < c.toNat := by omega
              simp only [hab, if_false] at h1
              simp only [hbc, if_false] at h2
              simp only [hac, if_false]
              exact ih bs cs h1 h2

theorem strLt_conn {a b : String} (h1 : strLt a b = false) (h2 : strLt b a = false) :
    a = b := String.ext (charListLt_conn a.data b.data h1 h2)

instance : IsTotal (String × ℤ) keyLe where
  total a b := by
    unfold keyLe
    cases h : strLt b.1 a.1 with
    | false => exact Or.inl rfl
    | true => exact Or.inr (charListLt_asymm _ _ h)

instance : IsTrans (String × ℤ) keyLe where
  trans a b c h1 h2 := charListLt_le_trans _ _ _ h1 h2

theorem sortByKey_perm (d : List (String × ℤ)) : (sortByKey d).Perm d :=
  List.perm_insertionSort keyLe d

theorem dvalsum_sortByKey (d : List (String × ℤ)) :
    dvalsum (sortByKey d) = dvalsum d := dvalsum_perm (sortByKey_perm d)

theorem dlookup_sortByKey {d : List (String × ℤ)} (hn : (dkeys d).Nodup)
    (k : String) : dlookup (sortByKey d) k = dlookup d k :=
  dlookup_perm (sortByKey_perm d)
    (((sortByKey_perm d).map Prod.fst).nodup_iff.mpr hn) k

theorem sortByKey_sorted (d : List (String × ℤ)) :
    List.Sorted keyLe (sortByKey d) :=
  List.sorted_insertionSort keyLe d

theorem dkeys_sortByKey_strict {d : List (String × ℤ)} (hn : (dkeys d).Nodup) :
    List.Pairwise (fun a b => strLt a b = true) (dkeys (sortByKey d)) := by
  have hsorted : List.Pairwise keyLe (sortByKey d) := sortByKey_sorted d
  have hnd : (dkeys (sortByKey d)).Nodup :=
    ((sortByKey_perm d).map Prod.fst).nodup_iff.mpr hn
  have hle : List.Pairwise (fun a b : String => strLt b a = false)
      (dkeys (sortByKey d)) := by
    unfold dkeys
    exact (List.pairwise_map).mpr (hsorted.imp (fun h => h))
  have := hle.and hnd
  refine this.imp ?_
  rintro a b ⟨h1, h2⟩
  cases h3 : strLt a b with
  | true => rfl
  | false => exact absurd (strLt_conn h3 h1) h2

/-! ## Weekday lemmas -/

theorem dayNames_getD_inj : ∀ a b : Fin 7,
    dayNames.getD a.val "" = dayNames.getD b.val "" → a = b := by decide

theorem dayAbbrev_inj_mod {x y : Nat} (h : dayAbbrev x = dayAbbrev y) :
    (x + 2) % 7 = (y + 2) % 7 := by
  have hx : (x + 2) % 7 < 7 := Nat.mod_lt _ (by omega)
  have hy : (y + 2) % 7 < 7 := Nat.mod_lt _ (by omega)
  have := dayNames_getD_inj ⟨(x + 2) % 7, hx⟩ ⟨(y + 2) % 7, hy⟩ h
  exact congrArg Fin.val this

theorem dayAbbrev_congr_mod {x y : Nat} (h : (x + 2) % 7 = (y + 2) % 7) :
    dayAbbrev x = dayAbbrev y := by
  unfold dayAbbrev
  rw [h]

/-- The weekday name of any day in the 8-day span `today - 7 .. today` is one
of the 7 keys that the weekly breakdown initializes (the weekday of `today - 7`
coincides with the weekday of `today`). -/
theorem dayAbbrev_mem_weekly_keys {today x : Nat} (h1 : x ≤ today)
    (h2 : today ≤ x + 7) :
    dayAbbrev x ∈ dkeys ((List.range 7).foldl
      (fun d i => dset d (dayAbbrev (today - (6 - i))) 0) []) := by
  rw [foldl_dset_mem_dkeys]
  right
  by_cases h7 : today - x ≤ 6
  · refine ⟨6 - (today - x), List.mem_range.mpr (by omega), ?_⟩
    have : today - (6 - (6 - (today - x))) = x := by omega
    rw [this]
  · refine ⟨6, List.mem_range.mpr (by omega), ?_⟩
    have : today - (6 - 6) = today := by omega
    rw [this]
    exact dayAbbrev_congr_mod (by omega)

/-- For a real date (`today ≥ 6`) the 7 initialized weekday keys are distinct. -/
theorem weekly_keys_nodup {today : Nat} (h6 : 6 ≤ today) :
    ((List.range 7).map (fun i => dayAbbrev (today - (6 - i)))).Nodup := by
  refine List.Nodup.map_on ?_ (List.nodup_range 7)
  intro i hi j hj heq
  rw [List.mem_range] at hi hj
  have := dayAbbrev_inj_mod heq
  omega

/-! ## Claim-side vocabulary (stated from the specification's wording) -/

/-- Sum of the amounts of the account's records dated in `lo .. hi` inclusive. -/
def windowSum (db : List Exp) (uid : Nat) (lo hi : Nat) : ℤ :=
  ((db.filter (fun r =>
    r.userId == uid && decide (lo ≤ r.date) && decide (r.date ≤ hi))).map (·.amount)).sum

/-- Sum of the amounts of all of the account's records. -/
def allSum (db : List Exp) (uid : Nat) : ℤ :=
  ((db.filter (fun r => r.userId == uid)).map (·.amount)).sum

/-- Sum of the amounts of the account's records dated on or after `lo`
(no upper bound: future-dated records count). -/
def sinceSum (db : List Exp) (uid : Nat) (lo : Nat) : ℤ :=
  ((db.filter (fun r => r.userId == uid && decide (lo ≤ r.date))).map (·.amount)).sum

/-- The 24 hour-bucket keys `"00:00"` .. `"23:00"`. -/
def stdHourKeys : List String := (List.range 24).map (fun i => pad2 i ++ ":00")

/-! ## Lemmas about the three breakdowns and the category dict -/

theorem dailyBreakdown_dvalsum (rs : List Exp) :
    dvalsum (dailyBreakdown rs) = (rs.map (·.amount)).sum := by
  unfold dailyBreakdown
  rw [dvalsum_sortByKey, foldl_fill_dvalsum (fun i => pad2 i ++ ":00"),
    foldl_dincr_dvalsum (fun r : Exp => hourKey r.time) (fun r : Exp => r.amount)]
  simp [dvalsum]

theorem weeklyBreakdown_dvalsum (today : Nat) (rs : List Exp)
    (h : ∀ r ∈ rs, today - 7 ≤ r.date ∧ r.date ≤ today) :
    dvalsum (weeklyBreakdown today rs) = (rs.map (·.amount)).sum := by
  unfold weeklyBreakdown
  rw [foldl_dadjust_dvalsum (fun r : Exp => dayAbbrev r.date) (fun r : Exp => r.amount)]
  · have hz : ∀ p ∈ ((List.range 7).foldl
        (fun d i => dset d (dayAbbrev (today - (6 - i))) 0) []), Prod.snd p = 0 :=
      foldl_dset_vals_zero _ _ [] (by simp)
    have : dvalsum ((List.range 7).foldl
        (fun d i => dset d (dayAbbrev (today - (6 - i))) 0) []) = 0 := by
      unfold dvalsum
      exact List.sum_eq_zero (by
        intro x hx
        rcases List.mem_map.mp hx with ⟨p, hp, hpx⟩
        exact hpx ▸ hz p hp)
    rw [this]; ring
  · intro r hr
    exact dayAbbrev_mem_weekly_keys (h r hr).2 (by have := (h r hr).1; omega)

theorem dlookup_groupSum (rs : List Exp) (c : String) :
    dlookup (groupSum rs) c =
      if (rs.filter (fun r => r.category == c)).isEmpty then none
      else some (((rs.filter (fun r => r.category == c)).map (·.amount)).sum) := by
  unfold groupSum
  by_cases hmem : ∃ r ∈ rs, r.category = c
  · have hk : c ∈ dkeys (rs.foldl (fun d r => dincr d r.category r.amount) []) := by
      rw [foldl_dincr_mem_dkeys (fun r : Exp => r.category) (fun r : Exp => r.amount)]
      exact Or.inr hmem
    have hne : ¬ (rs.filter (fun r => r.category == c)).isEmpty = true := by
      rw [List.isEmpty_iff, List.filter_eq_nil_iff]
      push_neg
      obtain ⟨r, hr, hrc⟩ := hmem
      exact ⟨r, hr, by simp [hrc]⟩
    rw [if_neg hne, dlookup_eq_some_dgetD hk,
      foldl_dincr_dgetD (fun r : Exp => r.category) (fun r : Exp => r.amount)]
    simp [dgetD, dlookup]
  · have hk : c ∉ dkeys (rs.foldl (fun d r => dincr d r.category r.amount) []) := by
      rw [foldl_dincr_mem_dkeys (fun r : Exp => r.category) (fun r : Exp => r.amount)]
      simp only [dkeys, List.map_nil, List.not_mem_nil, false_or]
      exact hmem
    have hemp : (rs.filter (fun r => r.category == c)).isEmpty = true := by
      rw [List.isEmpty_iff, List.filter_eq_nil_iff]
      intro a ha
      simp only [beq_iff_eq]
      exact fun he => hmem ⟨a, ha, he⟩
    rw [if_pos hemp, dlookup_eq_none_iff]
    exact hk

theorem monthlyBreakdown_eq_map (db : List Exp) (today : Nat)
    (hk : ((List.range 6).map (fun j => monthYearKey (today - 30 * j))).Nodup) :
    monthlyBreakdown db today = (List.range 6).map
      (fun i => (monthYearKey (today - 30 * i), monthBucketAmt db today i)) := by
  unfold monthlyBreakdown
  rw [foldl_dset_eq_append (fun i => monthYearKey (today - 30 * i))
    (fun i => monthBucketAmt db today i) (List.range 6) [] (by simp [dkeys]) hk]
  simp

/-! ## Filter-composition helpers -/

theorem filter_user_window (db : List Exp) (u w1 w2 : Exp → Bool) :
    (db.filter u).filter (fun r => w1 r && w2 r)
      = db.filter (fun r => u r && w1 r && w2 r) := by
  rw [List.filter_filter]
  apply List.filter_congr
  intro a _
  cases u a <;> cases w1 a <;> cases w2 a <;> rfl

theorem filter_user_window_cat (db : List Exp) (u w1 w2 cp : Exp → Bool) :
    ((db.filter u).filter (fun r => w1 r && w2 r)).filter cp
      = db.filter (fun r => u r && w1 r && w2 r && cp r) := by
  rw [filter_user_window, List.filter_filter]
  apply List.filter_congr
  intro a _
  cases u a <;> cases w1 a <;> cases w2 a <;> cases cp a <;> rfl

theorem filter_user_cat (db : List Exp) (u cp : Exp → Bool) :
    (db.filter u).filter cp = db.filter (fun r => u r && cp r) := by
  rw [List.filter_filter]
  apply List.filter_congr
  intro a _
  cases u a <;> cases cp a <;> rfl

theorem filter_user_since (db : List Exp) (u w1 : Exp → Bool) :
    (db.filter u).filter w1 = db.filter (fun r => u r && w1 r) :=
  filter_user_cat db u w1

/-- Rewriting every record's time field does not change which records a
time-blind filter keeps, nor their amounts. -/
theorem sum_amount_filter_time_rewrite (db : List Exp) (f : Exp → String)
    (q : Exp → Bool) (hq : ∀ r, q { r with time := f r } = q r) :
    (((db.map (fun r => { r with time := f r })).filter q).map (·.amount)).sum
      = ((db.filter q).map (·.amount)).sum := by
  induction db with
  | nil => rfl
  | cons r rest ih =>
    simp only [List.map_cons, List.filter_cons, hq r]
    cases q r <;> simp [ih]

/-! ## Concrete inputs used by the claims -/

/-- The specification's reference date, 2024-03-15 (a Friday). -/
def exToday : Nat := daysFromCivil 2024 3 15

/-- The specification's example record set (both records owned by account 1):
10 for food on 2024-03-15 at 09:15, and 5 for transport on 2024-03-08 with no
time of day. -/
def exDb : List Exp :=
  [{ id := 1, userId := 1, description := "lunch", amount := 10, category := "food",
     date := daysFromCivil 2024 3 15, time := "09:15" },
   { id := 2, userId := 1, description := "bus", amount := 5, category := "transport",
     date := daysFromCivil 2024 3 8, time := "" }]

/-- A single record owned by account 2, dated 2024-03-15. -/
def leakDb : List Exp :=
  [{ id := 7, userId := 2, description := "other", amount := 5, category := "misc",
     date := daysFromCivil 2024 3 15, time := "" }]

/-- A single record of account 1 dated 100 days after `exToday`. -/
def futureDb : List Exp :=
  [{ id := 3, userId := 1, description := "future", amount := 5, category := "misc",
     date := exToday + 100, time := "" }]

/-- A record dated today whose time is not zero-padded. -/
def padDb : List Exp :=
  [{ id := 4, userId := 1, description := "x", amount := 10, category := "food",
     date := exToday, time := "9:15" }]

/-- A record dated today whose time is an unparseable string. -/
def badTimeDb : List Exp :=
  [{ id := 5, userId := 1, description := "x", amount := 5, category := "misc",
     date := exToday, time := "abc" }]

/-! ## Projection lemmas for `getStats` -/

theorem getStats_period (db : List Exp) (uid today : Nat) (p : String) :
    (getStats db uid today p).period = p := by
  simp only [getStats]

theorem getStats_weekly_spent (db : List Exp) (uid today : Nat) (p : String) :
    (getStats db uid today p).weekly_spent = sinceSum db uid (today - 7) := by
  simp only [getStats]
  rw [filter_user_since db (fun r => r.userId == uid)
    (fun r => decide (today - 7 ≤ r.date))]
  rfl

theorem getStats_monthly_spent (db : List Exp) (uid today : Nat) (p : String) :
    (getStats db uid today p).monthly_spent = sinceSum db uid (today - 30) := by
  simp only [getStats]
  rw [filter_user_since db (fun r => r.userId == uid)
    (fun r => decide (today - 30 ≤ r.date))]
  rfl

theorem getStats_total_daily (db : List Exp) (uid today : Nat) :
    (getStats db uid today "daily").total_spent = windowSum db uid today today := by
  simp only [getStats]
  rw [show (("daily" : String) == "daily") = true from rfl]
  simp only [if_true]
  rw [filter_user_window db (fun r => r.userId == uid)
    (fun r => decide (today ≤ r.date)) (fun r => decide (r.date ≤ today))]
  rfl

theorem getStats_total_weekly (db : List Exp) (uid today : Nat) :
    (getStats db uid today "weekly").total_spent
      = windowSum db uid (today - 7) today := by
  have h : (getStats db uid today "weekly").total_spent
      = (((db.filter (fun r => r.userId == uid)).filter
          (fun r => decide (today - 7 ≤ r.date) && decide (r.date ≤ today))).map
            (fun r => r.amount)).sum := rfl
  rw [h, filter_user_window db (fun r => r.userId == uid)
    (fun r => decide (today - 7 ≤ r.date)) (fun r => decide (r.date ≤ today))]
  rfl

theorem getStats_total_monthly (db : List Exp) (uid today : Nat) :
    (getStats db uid today "monthly").total_spent
      = windowSum db uid (today - 30) today := by
  have h : (getStats db uid today "monthly").total_spent
      = (((db.filter (fun r => r.userId == uid)).filter
          (fun r => decide (today - 30 ≤ r.date) && decide (r.date ≤ today))).map
            (fun r => r.amount)).sum := rfl
  rw [h, filter_user_window db (fun r => r.userId == uid)
    (fun r => decide (today - 30 ≤ r.date)) (fun r => decide (r.date ≤ today))]
  rfl

theorem getStats_total_all (db : List Exp) (uid today : Nat) :
    (getStats db uid today "all").total_spent = allSum db uid := by
  simp only [getStats]
  norm_num
  rfl

theorem getStats_category_daily (db : List Exp) (uid today : Nat) (c : String) :
    dlookup ((getStats db uid today "daily").category_stats) c =
      if (db.filter (fun r => r.userId == uid && decide (today ≤ r.date)
          && decide (r.date ≤ today) && (r.category == c))).isEmpty then none
      else some (((db.filter (fun r => r.userId == uid && decide (today ≤ r.date)
          && decide (r.date ≤ today) && (r.category == c))).map (·.amount)).sum) := by
  have h : (getStats db uid today "daily").category_stats
      = groupSum ((db.filter (fun r => r.userId == uid)).filter
          (fun r => decide (today ≤ r.date) && decide (r.date ≤ today))) := rfl
  rw [h, dlookup_groupSum]
  simp only [filter_user_window_cat db (fun r => r.userId == uid)
    (fun r => decide (today ≤ r.date)) (fun r => decide (r.date ≤ today))
    (fun r => r.category == c)]

theorem getStats_category_weekly (db : List Exp) (uid today : Nat) (c : String) :
    dlookup ((getStats db uid today "weekly").category_stats) c =
      if (db.filter (fun r => r.userId == uid && decide (today - 7 ≤ r.date)
          && decide (r.date ≤ today) && (r.category == c))).isEmpty then none
      else some (((db.filter (fun r => r.userId == uid && decide (today - 7 ≤ r.date)
          && decide (r.date ≤ today) && (r.category == c))).map (·.amount)).sum) := by
  have h : (getStats db uid today "weekly").category_stats
      = groupSum ((db.filter (fun r => r.userId == uid)).filter
          (fun r => decide (today - 7 ≤ r.date) && decide (r.date ≤ today))) := rfl
  rw [h, dlookup_groupSum]
  simp only [filter_user_window_cat db (fun r => r.userId == uid)
    (fun r => decide (today - 7 ≤ r.date)) (fun r => decide (r.date ≤ today))
    (fun r => r.category == c)]

theorem getStats_category_monthly (db : List Exp) (uid today : Nat) (c : String) :
    dlookup ((getStats db uid today "monthly").category_stats) c =
      if (db.filter (fun r => r.userId == uid && decide (today - 30 ≤ r.date)
          && decide (r.date ≤ today) && (r.category == c))).isEmpty then none
      else some (((db.filter (fun r => r.userId == uid && decide (today - 30 ≤ r.date)
          && decide (r.date ≤ today) && (r.category == c))).map (·.amount)).sum) := by
  have h : (getStats db uid today "monthly").category_stats
      = groupSum ((db.filter (fun r => r.userId == uid)).filter
          (fun r => decide (today - 30 ≤ r.date) && decide (r.date ≤ today))) := rfl
  rw [h, dlookup_groupSum]
  simp only [filter_user_window_cat db (fun r => r.userId == uid)
    (fun r => decide (today - 30 ≤ r.date)) (fun r => decide (r.date ≤ today))
    (fun r => r.category == c)]

theorem getStats_category_all (db : List Exp) (uid today : Nat) (c : String) :
    dlookup ((getStats db uid today "all").category_stats) c =
      if (db.filter (fun r => r.userId == uid && (r.category == c))).isEmpty then none
      else some (((db.filter (fun r => r.userId == uid
          && (r.category == c))).map (·.amount)).sum) := by
  have h : (getStats db uid today "all").category_stats
      = groupSum (db.filter (fun r => r.userId == uid)) := rfl
  rw [h, dlookup_groupSum]
  simp only [filter_user_cat db (fun r => r.userId == uid) (fun r => r.category == c)]

theorem getStats_breakdown_daily (db : List Exp) (uid today : Nat) :
    (getStats db uid today "daily").breakdown
      = dailyBreakdown ((db.filter (fun r => r.userId == uid)).filter
          (fun r => decide (today ≤ r.date) && decide (r.date ≤ today))) := by
  simp only [getStats, show (("daily" : String) == "daily") = true from by decide,
    show (("daily" : String) == "weekly") = false from by decide,
    show (("daily" : String) == "monthly") = false from by decide,
    if_true, Bool.false_eq_true, if_false]

theorem getStats_breakdown_weekly (db : List Exp) (uid today : Nat) :
    (getStats db uid today "weekly").breakdown
      = weeklyBreakdown today ((db.filter (fun r => r.userId == uid)).filter
          (fun r => decide (today - 7 ≤ r.date) && decide (r.date ≤ today))) := by
  simp only [getStats, show (("weekly" : String) == "daily") = false from by decide,
    show (("weekly" : String) == "weekly") = true from by decide,
    show (("weekly" : String) == "monthly") = false from by decide,
    if_true, Bool.false_eq_true, if_false]

theorem getStats_breakdown_monthly (db : List Exp) (uid today : Nat) :
    (getStats db uid today "monthly").breakdown = monthlyBreakdown db today := by
  simp only [getStats, show (("monthly" : String) == "daily") = false from by decide,
    show (("monthly" : String) == "weekly") = false from by decide,
    show (("monthly" : String) == "monthly") = true from by decide,
    if_true, Bool.false_eq_true, if_false]

theorem getStats_breakdown_all (db : List Exp) (uid today : Nat) :
    (getStats db uid today "all").breakdown = monthlyBreakdown db today := by
  simp only [getStats, show (("all" : String) == "daily") = false from by decide,
    show (("all" : String) == "weekly") = false from by decide,
    show (("all" : String) == "monthly") = false from by decide,
    if_true, Bool.false_eq_true, if_false]

/-! ## Claim C2 (code bug) -/

/-- C2 names a real bug: the monthly/'all' breakdown query at src/app.py:656
omits the user filter, so another account's record (owned by account 2, dated
2024-03-15) shows up in account 1's "Mar 2024" bucket; with account 2's record
removed the bucket is 0.  Every result field other than this breakdown is
computed from the account's own records only. -/
theorem C2_code_bug :
    dlookup ((getStats leakDb 1 exToday "all").breakdown) "Mar 2024" = some 5
    ∧ dlookup ((getStats ([] : List Exp) 1 exToday "all").breakdown) "Mar 2024" = some 0 := by
  decide

/-! ## Claim C4 (corrected) -/

/-- C4 as stated is false at the specification's own example input: the weekly
window is the 8 days 2024-03-08 .. 2024-03-15 and both ends are Fridays, so
the two records accumulate into the SAME "Fri" bucket, which holds 15, not 10
and 5 separately. -/
theorem C4_counterexample :
    dayAbbrev (daysFromCivil 2024 3 8) = "Fri"
    ∧ dayAbbrev (daysFromCivil 2024 3 15) = "Fri"
    ∧ dlookup ((getStats exDb 1 exToday "weekly").breakdown) "Fri" = some 15 := by
  decide

/-- C4 amended: with today = 2024-03-15 and the two example records, period
'weekly' gives total_spent = 15, category_stats food = 10 and transport = 5,
and a 7-key breakdown summing to 15 whose "Fri" bucket holds 15 (the
2024-03-08 record, also a Friday, lands in today's weekday bucket) with the
other six buckets zero. -/
theorem C4_amended :
    (getStats exDb 1 exToday "weekly").total_spent = 15
    ∧ dlookup ((getStats exDb 1 exToday "weekly").category_stats) "food" = some 10
    ∧ dlookup ((getStats exDb 1 exToday "weekly").category_stats) "transport" = some 5
    ∧ ((getStats exDb 1 exToday "weekly").breakdown).length = 7
    ∧ dvalsum ((getStats exDb 1 exToday "weekly").breakdown) = 15
    ∧ dlookup ((getStats exDb 1 exToday "weekly").breakdown) "Fri" = some 15
    ∧ ∀ k ∈ ["Sat", "Sun", "Mon", "Tue", "Wed", "Thu"],
        dlookup ((getStats exDb 1 exToday "weekly").breakdown) k = some 0 := by
  decide

/-! ## Counterexamples for claims C1, C3, C5, C9 -/

/-- C1 as stated is false: `weekly_spent` and `monthly_spent` use only a lower
date bound (src/app.py:519, 525), so a record dated 100 days AFTER today is
counted, while a sum over the window of the last 7 (or 30) days ending today
would be 0. -/
theorem C1_counterexample :
    (getStats futureDb 1 exToday "all").weekly_spent = 5
    ∧ windowSum futureDb 1 (exToday - 7) exToday = 0
    ∧ (getStats futureDb 1 exToday "all").monthly_spent = 5
    ∧ windowSum futureDb 1 (exToday - 30) exToday = 0 := by
  decide

/-- C3 as stated is false: the bucket sums are NOT computed over the account's
record set.  For account 1 (no records of its own) the most recent bucket of
period 'all' holds 5 — the record of account 2 — while the sum over account
1's records in the bucket's boundaries is 0. -/
theorem C3_counterexample :
    dlookup ((getStats leakDb 1 exToday "all").breakdown)
        (monthYearKey (exToday - 30 * 0))
      ≠ some (((leakDb.filter (fun r => r.userId == 1
          && decide (monthStart exToday 0 ≤ r.date)
          && decide (r.date ≤ monthEnd exToday 0))).map (·.amount)).sum) := by
  decide

/-- C5 as stated is false on two counts: a record whose time "9:15" is not
zero-padded creates a 25th daily key "9:00" beside the filled "09:00"; and
with today = 2024-01-31 the anchors `today` and `today - 30` both fall in
January 2024, so the monthly/'all' breakdown has only 5 keys. -/
theorem C5_counterexample :
    ((getStats padDb 1 exToday "daily").breakdown).length = 25
    ∧ ((getStats ([] : List Exp) 1 (daysFromCivil 2024 1 31) "all").breakdown).length = 5 := by
  decide

/-- C9 as stated is false: a record with the unparseable time "abc" is NOT
treated as hour "00" — its amount lands in a separate bucket "abc:00" while
"00:00" stays 0 (the record does remain in total_spent). -/
theorem C9_counterexample :
    dlookup ((getStats badTimeDb 1 exToday "daily").breakdown) "00:00" = some 0
    ∧ dlookup ((getStats badTimeDb 1 exToday "daily").breakdown) "abc:00" = some 5
    ∧ (getStats badTimeDb 1 exToday "daily").total_spent = 5 := by
  decide

/-! ## Claims C1 (amended), C6, C7, C8 -/

/-- C1 amended: `weekly_spent` and `monthly_spent` are invariant under the
period selector and depend only on the record set and today, but each is the
sum of the account's records dated ON OR AFTER today - 7 (resp. today - 30)
with no upper bound, so future-dated records are included — not the sum over
the window of the 7 (resp. 30) days ending today. -/
theorem C1_amended (db : List Exp) (uid today : Nat) (p q : String) :
    (getStats db uid today p).weekly_spent = (getStats db uid today q).weekly_spent
    ∧ (getStats db uid today p).monthly_spent = (getStats db uid today q).monthly_spent
    ∧ (getStats db uid today p).weekly_spent = sinceSum db uid (today - 7)
    ∧ (getStats db uid today p).monthly_spent = sinceSum db uid (today - 30) := by
  refine ⟨?_, ?_, getStats_weekly_spent db uid today p,
    getStats_monthly_spent db uid today p⟩
  · rw [getStats_weekly_spent, getStats_weekly_spent]
  · rw [getStats_monthly_spent, getStats_monthly_spent]

/-- C6: for every record set and today, `total_spent` is exactly the sum of
the account's records dated inside the selected window (today only for
'daily', today - 7 .. today for 'weekly', today - 30 .. today for 'monthly',
everything for 'all'); an empty window yields 0; and `category_stats` maps a
category to the sum of its amounts over the same windowed records, with no
entry for a category absent from the window. -/
theorem C6_windows (db : List Exp) (uid today : Nat) :
    ((getStats db uid today "daily").total_spent = windowSum db uid today today)
    ∧ ((getStats db uid today "weekly").total_spent = windowSum db uid (today - 7) today)
    ∧ ((getStats db uid today "monthly").total_spent = windowSum db uid (today - 30) today)
    ∧ ((getStats db uid today "all").total_spent = allSum db uid)
    ∧ (db.filter (fun r => r.userId == uid && decide (today ≤ r.date)
        && decide (r.date ≤ today)) = [] →
          (getStats db uid today "daily").total_spent = 0)
    ∧ (∀ c, dlookup ((getStats db uid today "daily").category_stats) c =
        if (db.filter (fun r => r.userId == uid && decide (today ≤ r.date)
            && decide (r.date ≤ today) && (r.category == c))).isEmpty then none
        else some (((db.filter (fun r => r.userId == uid && decide (today ≤ r.date)
            && decide (r.date ≤ today) && (r.category == c))).map (·.amount)).sum))
    ∧ (∀ c, dlookup ((getStats db uid today "weekly").category_stats) c =
        if (db.filter (fun r => r.userId == uid && decide (today - 7 ≤ r.date)
            && decide (r.date ≤ today) && (r.category == c))).isEmpty then none
        else some (((db.filter (fun r => r.userId == uid && decide (today - 7 ≤ r.date)
            && decide (r.date ≤ today) && (r.category == c))).map (·.amount)).sum))
    ∧ (∀ c, dlookup ((getStats db uid today "monthly").category_stats) c =
        if (db.filter (fun r => r.userId == uid && decide (today - 30 ≤ r.date)
            && decide (r.date ≤ today) && (r.category == c))).isEmpty then none
        else some (((db.filter (fun r => r.userId == uid && decide (today - 30 ≤ r.date)
            && decide (r.date ≤ today) && (r.category == c))).map (·.amount)).sum))
    ∧ (∀ c, dlookup ((getStats db uid today "all").category_stats) c =
        if (db.filter (fun r => r.userId == uid && (r.category == c))).isEmpty then none
        else some (((db.filter (fun r => r.userId == uid
            && (r.category == c))).map (·.amount)).sum)) := by
  refine ⟨getStats_total_daily db uid today, getStats_total_weekly db uid today,
    getStats_total_monthly db uid today, getStats_total_all db uid today,
    ?_, getStats_category_daily db uid today, getStats_category_weekly db uid today,
    getStats_category_monthly db uid today, getStats_category_all db uid today⟩
  intro hemp
  rw [getStats_total_daily]
  unfold windowSum
  rw [hemp]
  rfl

/-- Witness for C6_windows: at a date 1000 days past the records the daily
window is empty and `total_spent` is 0, and at the reference date the weekly
total is the windowed sum. -/
theorem C6_witness :
    (getStats exDb 1 (exToday + 1000) "daily").total_spent = 0
    ∧ (getStats exDb 1 exToday "weekly").total_spent
        = windowSum exDb 1 (exToday - 7) exToday :=
  ⟨(C6_windows exDb 1 (exToday + 1000)).2.2.2.2.1 (by decide),
   (C6_windows exDb 1 exToday).2.1⟩

/-- C7: for periods 'daily' and 'weekly' the values of the breakdown sum
exactly to `total_spent` — every windowed record lands in exactly one bucket,
none dropped, none double counted. -/
theorem C7_breakdown_sum (db : List Exp) (uid today : Nat) :
    dvalsum ((getStats db uid today "daily").breakdown)
        = (getStats db uid today "daily").total_spent
    ∧ dvalsum ((getStats db uid today "weekly").breakdown)
        = (getStats db uid today "weekly").total_spent := by
  constructor
  · have ht : (getStats db uid today "daily").total_spent
        = (((db.filter (fun r => r.userId == uid)).filter
            (fun r => decide (today ≤ r.date) && decide (r.date ≤ today))).map
              (fun r => r.amount)).sum := rfl
    rw [getStats_breakdown_daily, ht, dailyBreakdown_dvalsum]
  · have ht : (getStats db uid today "weekly").total_spent
        = (((db.filter (fun r => r.userId == uid)).filter
            (fun r => decide (today - 7 ≤ r.date) && decide (r.date ≤ today))).map
              (fun r => r.amount)).sum := rfl
    rw [getStats_breakdown_weekly, ht, weeklyBreakdown_dvalsum]
    intro r hr
    have := (List.mem_filter.mp hr).2
    rcases Bool.and_eq_true_iff.mp this with ⟨h1, h2⟩
    exact ⟨of_decide_eq_true h1, of_decide_eq_true h2⟩

/-- C8: any period selector other than 'daily', 'weekly' and 'monthly' gets
exactly the semantics of 'all' (no window, the 6-key monthly-style breakdown),
silently, with the selector echoed back unchanged in the `period` field. -/
theorem C8_fallback (db : List Exp) (uid today : Nat) (p : String)
    (h1 : p ≠ "daily") (h2 : p ≠ "weekly") (h3 : p ≠ "monthly") :
    getStats db uid today p = { getStats db uid today "all" with period := p } := by
  have e1 : (p == "daily") = false := beq_eq_false_iff_ne.mpr h1
  have e2 : (p == "weekly") = false := beq_eq_false_iff_ne.mpr h2
  have e3 : (p == "monthly") = false := beq_eq_false_iff_ne.mpr h3
  simp [getStats, e1, e2, e3]

/-- Witness for C8_fallback at the unrecognized selector "yearly". -/
theorem C8_witness :
    getStats exDb 1 exToday "yearly"
      = { getStats exDb 1 exToday "all" with period := "yearly" } :=
  C8_fallback exDb 1 exToday "yearly" (by decide) (by decide) (by decide)

/-! ## Claim C3 (amended) -/

/-- C3 amended: for periods 'monthly' and 'all' the breakdown is identical and
each bucket is computed over the full unwindowed record set OF ALL ACCOUNTS
(src/app.py:656 omits the user filter), not the period window: provided the six
anchor keys are distinct, the bucket keyed by the `'%b %Y'` name of
`today - 30*i` sums the amounts of every record dated between the first
calendar day of the anchor's month and the bucket's end boundary (today for
`i = 0`, otherwise the day before the first calendar day of the month of
`today - 30*(i-1)`); in particular, for period 'monthly' records older than
30 days still contribute. -/
theorem C3_amended (db : List Exp) (uid today : Nat) (i : Nat) (hi : i < 6)
    (hk : ((List.range 6).map (fun j => monthYearKey (today - 30 * j))).Nodup) :
    dlookup ((getStats db uid today "monthly").breakdown)
        (monthYearKey (today - 30 * i))
      = some (((db.filter (fun r => decide (monthStart today i ≤ r.date)
          && decide (r.date ≤ monthEnd today i))).map (·.amount)).sum)
    ∧ (getStats db uid today "monthly").breakdown
        = (getStats db uid today "all").breakdown := by
  refine ⟨?_, by rw [getStats_breakdown_monthly, getStats_breakdown_all]⟩
  rw [getStats_breakdown_monthly, monthlyBreakdown_eq_map db today hk]
  have h := dlookup_map_pairs (fun j => monthYearKey (today - 30 * j))
    (fun j => monthBucketAmt db today j) (List.range 6) hk (List.mem_range.mpr hi)
  simpa [monthBucketAmt] using h

/-- Witness for C3_amended: bucket 0 at the reference date (the six anchor
keys "Mar 2024" .. "Oct 2023" are distinct). -/
theorem C3_witness :
    dlookup ((getStats leakDb 1 exToday "monthly").breakdown)
        (monthYearKey (exToday - 30 * 0))
      = some (((leakDb.filter (fun r => decide (monthStart exToday 0 ≤ r.date)
          && decide (r.date ≤ monthEnd exToday 0))).map (·.amount)).sum)
    ∧ (getStats leakDb 1 exToday "monthly").breakdown
        = (getStats leakDb 1 exToday "all").breakdown :=
  C3_amended leakDb 1 exToday 0 (by decide) (by decide)

/-! ## Claim C9 (amended) -/

theorem window_time_invariant (db : List Exp) (f : Exp → String)
    (uid lo hi : Nat) :
    ((((db.map (fun r => { r with time := f r })).filter
        (fun r => r.userId == uid)).filter
        (fun r => decide (lo ≤ r.date) && decide (r.date ≤ hi))).map
          (fun r => r.amount)).sum
      = (((db.filter (fun r => r.userId == uid)).filter
          (fun r => decide (lo ≤ r.date) && decide (r.date ≤ hi))).map
            (fun r => r.amount)).sum := by
  rw [List.filter_filter, List.filter_filter]
  exact sum_amount_filter_time_rewrite db f _ (fun r => rfl)

theorem all_time_invariant (db : List Exp) (f : Exp → String) (uid : Nat) :
    (((db.map (fun r => { r with time := f r })).filter
        (fun r => r.userId == uid)).map (fun r => r.amount)).sum
      = ((db.filter (fun r => r.userId == uid)).map (fun r => r.amount)).sum :=
  sum_amount_filter_time_rewrite db f _ (fun r => rfl)

/-- C9 amended: in the 'daily' breakdown the "00:00" bucket holds exactly the
windowed records whose hour key is "00:00" — the missing (empty) time, or a
time whose text before the first colon is "00".  A nonempty unparseable time
is NOT defaulted to "00": it lands in its own bucket named after its pre-colon
text.  No record is ever rejected: `total_spent` is invariant under arbitrary
rewriting of every record's time field, for every period. -/
theorem C9_amended (db : List Exp) (uid today : Nat) :
    dlookup ((getStats db uid today "daily").breakdown) "00:00"
      = some (((db.filter (fun r => r.userId == uid && decide (today ≤ r.date)
          && decide (r.date ≤ today) && (hourKey r.time == "00:00"))).map
            (·.amount)).sum)
    ∧ ∀ (f : Exp → String) (p : String),
        (getStats (db.map (fun r => { r with time := f r })) uid today p).total_spent
          = (getStats db uid today p).total_spent := by
  constructor
  · rw [getStats_breakdown_daily]
    unfold dailyBreakdown
    have hacc_nodup : (dkeys (((db.filter (fun r => r.userId == uid)).filter
        (fun r => decide (today ≤ r.date) && decide (r.date ≤ today))).foldl
          (fun d r => dincr d (hourKey r.time) r.amount) [])).Nodup :=
      foldl_dincr_nodup (fun r : Exp => hourKey r.time) (fun r : Exp => r.amount)
        _ [] (by simp [dkeys])
    have hfill_nodup := foldl_fill_nodup (fun i => pad2 i ++ ":00")
      (List.range 24) _ hacc_nodup
    rw [dlookup_sortByKey hfill_nodup "00:00"]
    rw [foldl_fill_mem (fun i => pad2 i ++ ":00") (List.range 24) (by decide) _]
    rw [foldl_dincr_dgetD (fun r : Exp => hourKey r.time) (fun r : Exp => r.amount)]
    rw [show dgetD [] "00:00" 0 = 0 from rfl]
    rw [filter_user_window_cat db (fun r => r.userId == uid)
      (fun r => decide (today ≤ r.date)) (fun r => decide (r.date ≤ today))
      (fun r => hourKey r.time == "00:00")]
    norm_num
  · intro f p
    by_cases h1 : p = "daily"
    · subst h1
      have hL : (getStats (db.map (fun r => { r with time := f r })) uid today
          "daily").total_spent
          = ((((db.map (fun r => { r with time := f r })).filter
              (fun r => r.userId == uid)).filter
              (fun r => decide (today ≤ r.date) && decide (r.date ≤ today))).map
                (fun r => r.amount)).sum := rfl
      have hR : (getStats db uid today "daily").total_spent
          = (((db.filter (fun r => r.userId == uid)).filter
              (fun r => decide (today ≤ r.date) && decide (r.date ≤ today))).map
                (fun r => r.amount)).sum := rfl
      rw [hL, hR, window_time_invariant]
    by_cases h2 : p = "weekly"
    · subst h2
      have hL : (getStats (db.map (fun r => { r with time := f r })) uid today
          "weekly").total_spent
          = ((((db.map (fun r => { r with time := f r })).filter
              (fun r => r.userId == uid)).filter
              (fun r => decide (today - 7 ≤ r.date) && decide (r.date ≤ today))).map
                (fun r => r.amount)).sum := rfl
      have hR : (getStats db uid today "weekly").total_spent
          = (((db.filter (fun r => r.userId == uid)).filter
              (fun r => decide (today - 7 ≤ r.date) && decide (r.date ≤ today))).map
                (fun r => r.amount)).sum := rfl
      rw [hL, hR, window_time_invariant]
    by_cases h3 : p = "monthly"
    · subst h3
      have hL : (getStats (db.map (fun r => { r with time := f r })) uid today
          "monthly").total_spent
          = ((((db.map (fun r => { r with time := f r })).filter
              (fun r => r.userId == uid)).filter
              (fun r => decide (today - 30 ≤ r.date) && decide (r.date ≤ today))).map
                (fun r => r.amount)).sum := rfl
      have hR : (getStats db uid today "monthly").total_spent
          = (((db.filter (fun r => r.userId == uid)).filter
              (fun r => decide (today - 30 ≤ r.date) && decide (r.date ≤ today))).map
                (fun r => r.amount)).sum := rfl
      rw [hL, hR, window_time_invariant]
    · have e1 : (p == "daily") = false := beq_eq_false_iff_ne.mpr h1
      have e2 : (p == "weekly") = false := beq_eq_false_iff_ne.mpr h2
      have e3 : (p == "monthly") = false := beq_eq_false_iff_ne.mpr h3
      have hL : (getStats (db.map (fun r => { r with time := f r })) uid today
          p).total_spent
          = (((db.map (fun r => { r with time := f r })).filter
              (fun r => r.userId == uid)).map (fun r => r.amount)).sum := by
        simp only [getStats, e1, e2, e3, Bool.false_eq_true, if_false]
      have hR : (getStats db uid today p).total_spent
          = ((db.filter (fun r => r.userId == uid)).map (fun r => r.amount)).sum := by
        simp only [getStats, e1, e2, e3, Bool.false_eq_true, if_false]
      rw [hL, hR, all_time_invariant]

/-! ## Claim C5 (amended) -/

/-- C5 amended: the breakdown key counts hold with two provisos forced by the
counterexample.  Daily: exactly the 24 keys `"00:00"` .. `"23:00"` in strictly
ascending order PROVIDED every windowed record's hour key is one of them
(times that are not zero-padded two-digit hours mint extra keys).  Weekly:
always exactly 7 keys.  Monthly/'all': exactly 6 keys PROVIDED the six
30-day anchors fall under six distinct `'%b %Y'` names (two anchors in the
same calendar month collapse into one key). -/
theorem C5_amended (db : List Exp) (uid today : Nat) :
    ((∀ r ∈ db, r.userId = uid → today ≤ r.date → r.date ≤ today →
        hourKey r.time ∈ stdHourKeys) →
      ((getStats db uid today "daily").breakdown).length = 24
      ∧ List.Pairwise (fun a b => strLt a b = true)
          (dkeys ((getStats db uid today "daily").breakdown))
      ∧ ∀ k, k ∈ dkeys ((getStats db uid today "daily").breakdown)
          ↔ k ∈ stdHourKeys)
    ∧ (6 ≤ today → ((getStats db uid today "weekly").breakdown).length = 7)
    ∧ (((List.range 6).map (fun j => monthYearKey (today - 30 * j))).Nodup →
        ((getStats db uid today "monthly").breakdown).length = 6
        ∧ ((getStats db uid today "all").breakdown).length = 6) := by
  refine ⟨?_, ?_, ?_⟩
  · intro hstd
    rw [getStats_breakdown_daily]
    unfold dailyBreakdown
    have hrs : ∀ r ∈ (db.filter (fun r => r.userId == uid)).filter
        (fun r => decide (today ≤ r.date) && decide (r.date ≤ today)),
        hourKey r.time ∈ stdHourKeys := by
      intro r hr
      obtain ⟨hr1, hw⟩ := List.mem_filter.mp hr
      obtain ⟨hr0, hu⟩ := List.mem_filter.mp hr1
      rcases Bool.and_eq_true_iff.mp hw with ⟨hw1, hw2⟩
      exact hstd r hr0 (beq_iff_eq.mp hu) (of_decide_eq_true hw1)
        (of_decide_eq_true hw2)
    have hacc_nodup : (dkeys (((db.filter (fun r => r.userId == uid)).filter
        (fun r => decide (today ≤ r.date) && decide (r.date ≤ today))).foldl
          (fun d r => dincr d (hourKey r.time) r.amount) [])).Nodup :=
      foldl_dincr_nodup (fun r : Exp => hourKey r.time) (fun r : Exp => r.amount)
        _ [] (by simp [dkeys])
    have hacc_sub : ∀ k, k ∈ dkeys (((db.filter (fun r => r.userId == uid)).filter
        (fun r => decide (today ≤ r.date) && decide (r.date ≤ today))).foldl
          (fun d r => dincr d (hourKey r.time) r.amount) []) → k ∈ stdHourKeys := by
      intro k hk
      rw [foldl_dincr_mem_dkeys (fun r : Exp => hourKey r.time)
        (fun r : Exp => r.amount)] at hk
      rcases hk with hk | ⟨r, hr, hrk⟩
      · simp [dkeys] at hk
      · exact hrk ▸ hrs r hr
    have hfill_nodup := foldl_fill_nodup (fun i => pad2 i ++ ":00")
      (List.range 24) _ hacc_nodup
    have hfill_mem : ∀ k, k ∈ dkeys ((List.range 24).foldl
        (fun d i => if (dlookup d (pad2 i ++ ":00")).isSome then d
          else dset d (pad2 i ++ ":00") 0)
        (((db.filter (fun r => r.userId == uid)).filter
          (fun r => decide (today ≤ r.date) && decide (r.date ≤ today))).foldl
            (fun d r => dincr d (hourKey r.time) r.amount) []))
        ↔ k ∈ stdHourKeys := by
      intro k
      rw [foldl_fill_mem_dkeys (fun i => pad2 i ++ ":00") (List.range 24) k]
      constructor
      · rintro (hk | hk)
        · exact hacc_sub k hk
        · exact hk
      · intro hk
        exact Or.inr hk
    have hperm_keys : (dkeys (sortByKey ((List.range 24).foldl
        (fun d i => if (dlookup d (pad2 i ++ ":00")).isSome then d
          else dset d (pad2 i ++ ":00") 0)
        (((db.filter (fun r => r.userId == uid)).filter
          (fun r => decide (today ≤ r.date) && decide (r.date ≤ today))).foldl
            (fun d r => dincr d (hourKey r.time) r.amount) [])))).Perm
        (dkeys ((List.range 24).foldl
        (fun d i => if (dlookup d (pad2 i ++ ":00")).isSome then d
          else dset d (pad2 i ++ ":00") 0)
        (((db.filter (fun r => r.userId == uid)).filter
          (fun r => decide (today ≤ r.date) && decide (r.date ≤ today))).foldl
            (fun d r => dincr d (hourKey r.time) r.amount) []))) :=
      (sortByKey_perm _).map Prod.fst
    have hfill_perm_std : (dkeys ((List.range 24).foldl
        (fun d i => if (dlookup d (pad2 i ++ ":00")).isSome then d
          else dset d (pad2 i ++ ":00") 0)
        (((db.filter (fun r => r.userId == uid)).filter
          (fun r => decide (today ≤ r.date) && decide (r.date ≤ today))).foldl
            (fun d r => dincr d (hourKey r.time) r.amount) []))).Perm stdHourKeys := by
      rw [List.perm_ext_iff_of_nodup hfill_nodup (by decide)]
      exact hfill_mem
    refine ⟨?_, dkeys_sortByKey_strict hfill_nodup, ?_⟩
    · have h1 : (sortByKey ((List.range 24).foldl
          (fun d i => if (dlookup d (pad2 i ++ ":00")).isSome then d
            else dset d (pad2 i ++ ":00") 0)
          (((db.filter (fun r => r.userId == uid)).filter
            (fun r => decide (today ≤ r.date) && decide (r.date ≤ today))).foldl
              (fun d r => dincr d (hourKey r.time) r.amount) []))).length
          = (dkeys (sortByKey _)).length := (List.length_map _ _).symm
      rw [show ∀ l : List (String × ℤ), l.length = (dkeys l).length from
        fun l => (List.length_map _ _).symm]
      rw [hperm_keys.length_eq, hfill_perm_std.length_eq]
      decide
    · intro k
      rw [hperm_keys.mem_iff]
      exact hfill_mem k
  · intro h6
    rw [getStats_breakdown_weekly]
    unfold weeklyBreakdown
    rw [show ∀ l : List (String × ℤ), l.length = (dkeys l).length from
      fun l => (List.length_map _ _).symm]
    rw [dkeys_foldl_dadjust (fun r : Exp => dayAbbrev r.date) (fun r : Exp => r.amount)]
    rw [foldl_dset_eq_append (fun i => dayAbbrev (today - (6 - i))) (fun _ => 0)
      (List.range 7) [] (by simp [dkeys]) (weekly_keys_nodup h6)]
    simp [dkeys]
  · intro hk
    rw [getStats_breakdown_monthly, getStats_breakdown_all,
      monthlyBreakdown_eq_map db today hk]
    simp

/-- Witness for C5_amended at the reference input: 24 daily keys, 7 weekly
keys, 6 monthly keys. -/
theorem C5_witness :
    ((getStats exDb 1 exToday "daily").breakdown).length = 24
    ∧ ((getStats exDb 1 exToday "weekly").breakdown).length = 7
    ∧ ((getStats exDb 1 exToday "monthly").breakdown).length = 6 :=
  ⟨((C5_amended exDb 1 exToday).1 (by decide)).1,
   (C5_amended exDb 1 exToday).2.1 (by decide),
   ((C5_amended exDb 1 exToday).2.2 (by decide)).1⟩

/-! ## Claim C10 (delete semantics) -/

/-- C10: the delete handler answers success (HTTP 200, success = true) for
EVERY expense id — whether or not the record exists or belongs to the caller —
and the table changes exactly when a record with that id exists and is owned
by the caller: then that single record is removed (one row fewer, no row
added, every other row kept); otherwise the table is left untouched. -/
theorem C10_delete (db : List Exp) (uid eid : Nat)
    (hn : (db.map (fun r => r.id)).Nodup) :
    ((deleteExpense db uid eid).2 = (true, 200))
    ∧ ((∃ r ∈ db, r.id = eid ∧ r.userId = uid) →
        (deleteExpense db uid eid).1 = db.eraseP (fun x => x.id == eid)
        ∧ (deleteExpense db uid eid).1.length + 1 = db.length
        ∧ (∀ x ∈ (deleteExpense db uid eid).1, x ∈ db)
        ∧ (∀ x ∈ db, x.id ≠ eid → x ∈ (deleteExpense db uid eid).1))
    ∧ ((¬ ∃ r ∈ db, r.id = eid ∧ r.userId = uid) →
        (deleteExpense db uid eid).1 = db) := by
  cases hf : db.find? (fun r => r.id == eid) with
  | none =>
    have hnone : ∀ r ∈ db, r.id ≠ eid := by
      intro r hr he
      exact (List.find?_eq_none.mp hf r hr) (by simp [he])
    have heq : deleteExpense db uid eid = (db, true, 200) := by
      unfold deleteExpense
      rw [hf]
    rw [heq]
    refine ⟨rfl, ?_, fun _ => rfl⟩
    rintro ⟨r, hr, hid, -⟩
    exact absurd hid (hnone r hr)
  | some r =>
    have hrmem : r ∈ db := List.mem_of_find?_eq_some hf
    have hrid : r.id = eid := by
      have hb := @List.find?_some _ (fun r => r.id == eid) r db hf
      exact beq_iff_eq.mp (by simpa using hb)
    by_cases hu : r.userId = uid
    · have heq : deleteExpense db uid eid
          = (db.eraseP (fun x => x.id == eid), true, 200) := by
        unfold deleteExpense
        rw [hf]
        show (if (r.userId == uid) = true
            then (List.eraseP (fun x => x.id == eid) db, true, 200)
            else (db, true, 200))
          = (List.eraseP (fun x => x.id == eid) db, true, 200)
        rw [beq_iff_eq.mpr hu]
        simp
      rw [heq]
      refine ⟨rfl, ?_, ?_⟩
      · intro _
        refine ⟨rfl, ?_, ?_, ?_⟩
        · have := @List.length_eraseP_of_mem _ db r (fun x => x.id == eid)
            hrmem ((@beq_iff_eq Nat _ _ r.id eid).mpr hrid)
          have hpos := List.length_pos_of_mem hrmem
          show (List.eraseP (fun x => x.id == eid) db).length + 1 = db.length
          omega
        · intro x hx
          exact List.mem_of_mem_eraseP hx
        · intro x hx hne
          exact (List.mem_eraseP_of_neg (by simp [hne])).mpr hx
      · rintro hno
        exact absurd ⟨r, hrmem, hrid, hu⟩ hno
    · have heq : deleteExpense db uid eid = (db, true, 200) := by
        unfold deleteExpense
        rw [hf]
        show (if (r.userId == uid) = true
            then (List.eraseP (fun x => x.id == eid) db, true, 200)
            else (db, true, 200))
          = (db, true, 200)
        rw [beq_eq_false_iff_ne.mpr hu]
        simp
      rw [heq]
      refine ⟨rfl, ?_, fun _ => rfl⟩
      rintro ⟨r', hr', hid', hu'⟩
      have : r' = r := List.inj_on_of_nodup_map hn hr' hrmem (by rw [hid', hrid])
      exact absurd (this ▸ hu') hu

/-- Witness for C10_delete: deleting record 2 of account 1 from the example
table answers (true, 200) and removes exactly that record. -/
theorem C10_witness :
    (deleteExpense exDb 1 2).2 = (true, 200)
    ∧ (deleteExpense exDb 1 2).1 = exDb.eraseP (fun x => x.id == 2)
    ∧ (deleteExpense exDb 2 2).1 = exDb := by
  have h := C10_delete exDb 1 2 (by decide)
  have h2 := C10_delete exDb 2 2 (by decide)
  exact ⟨h.1, (h.2.1 (by decide)).1, h2.2.2 (by decide)⟩

end ExpTrack
